import Mathlib

/-
Verification development for the BPS Database Explorer (a Streamlit app over a
read-only SQLite database, src/app.py).  The filter model, the SQL query it
builds, the scientific-name highlighter and the ZIP export loop are embedded
shallowly below; machine strings are lists of characters, SQL NULL is Option,
and the subset of regular expressions actually generated by the code is given
an executable matcher.
-/

namespace BPS

/-! Basic character and string utilities shared by the embeddings. -/

/-- Case-insensitive character equality, as used by SQLite LIKE (ASCII folding)
and by re.IGNORECASE. -/
def eqCI (a b : Char) : Bool := a.toLower = b.toLower

/-- The exact character set CPython treats as str whitespace (isspace, and the
separator set of str.split() and str.strip() with no arguments, and the class
matched by the regex whitespace escape on str patterns): 09-0D, 1C-1F, 20, 85,
A0, 1680, 2000-200A, 2028, 2029, 202F, 205F, 3000. -/
def pyIsSpace (c : Char) : Bool :=
  (9 ≤ c.toNat && c.toNat ≤ 13) || (28 ≤ c.toNat && c.toNat ≤ 31) ||
  c.toNat = 32 || c.toNat = 0x85 || c.toNat = 0xA0 || c.toNat = 0x1680 ||
  (0x2000 ≤ c.toNat && c.toNat ≤ 0x200A) || c.toNat = 0x2028 ||
  c.toNat = 0x2029 || c.toNat = 0x202F || c.toNat = 0x205F || c.toNat = 0x3000

/-- Python str.strip: drop whitespace from both ends. -/
def pyStrip (l : List Char) : List Char :=
  ((l.dropWhile pyIsSpace).reverse.dropWhile pyIsSpace).reverse

/-- Python str.split() with no separator: split on whitespace runs, dropping
empty pieces. -/
def splitWS : List Char → List Char → List (List Char)
  | [], acc => if acc = [] then [] else [acc.reverse]
  | c :: rest, acc =>
    if pyIsSpace c then
      (if acc = [] then splitWS rest [] else acc.reverse :: splitWS rest [])
    else splitWS rest (c :: acc)

/-- Python s.split(one-char separator): keeps empty pieces. -/
def splitSep (sep : Char) : List Char → List Char → List (List Char)
  | [], acc => [acc.reverse]
  | c :: rest, acc =>
    if c = sep then acc.reverse :: splitSep sep rest []
    else splitSep sep rest (c :: acc)

/-- Boolean exact prefix test on character lists. -/
def isPrefixOfB : List Char → List Char → Bool
  | [], _ => true
  | _ :: _, [] => false
  | a :: as, b :: bs => a = b && isPrefixOfB as bs

/-- Boolean exact substring test (Python "needle in haystack"). -/
def infixB (n : List Char) : List Char → Bool
  | [] => isPrefixOfB n []
  | c :: t => isPrefixOfB n (c :: t) || infixB n t

/-- Byte-lexicographic order on character lists, mirroring SQLite BINARY
collation used by ORDER BY on text. -/
def charListLe : List Char → List Char → Bool
  | [], _ => true
  | _ :: _, [] => false
  | a :: as, b :: bs => a < b || (a = b && charListLe as bs)

/-- Lexicographic string order used for ORDER BY bps_model_id. -/
def strLe (a b : String) : Bool := charListLe a.toList b.toList

/-- The 66 starts of the Unicode decimal-digit (category Nd) runs; every run
covers exactly the ten codepoints start..start+9 with decimal values 0..9.
This is the set of digits int() accepts. -/
def ndStarts : List Nat :=
  [0x30, 0x660, 0x6F0, 0x7C0, 0x966, 0x9E6, 0xA66, 0xAE6, 0xB66, 0xBE6,
   0xC66, 0xCE6, 0xD66, 0xDE6, 0xE50, 0xED0, 0xF20, 0x1040, 0x1090, 0x17E0,
   0x1810, 0x1946, 0x19D0, 0x1A80, 0x1A90, 0x1B50, 0x1BB0, 0x1C40, 0x1C50,
   0xA620, 0xA8D0, 0xA900, 0xA9D0, 0xA9F0, 0xAA50, 0xABF0, 0xFF10, 0x104A0,
   0x10D30, 0x11066, 0x110F0, 0x11136, 0x111D0, 0x112F0, 0x11450, 0x114D0,
   0x11650, 0x116C0, 0x11730, 0x118E0, 0x11950, 0x11C50, 0x11D50, 0x11DA0,
   0x16A60, 0x16AC0, 0x16B50, 0x1D7CE, 0x1D7D8, 0x1D7E2, 0x1D7EC, 0x1D7F6,
   0x1E140, 0x1E2F0, 0x1E950, 0x1FBF0]

/-- The decimal value of a Unicode decimal-digit character, none for every
other character. -/
def decDigitVal (c : Char) : Option Nat :=
  ndStarts.findSome? (fun s =>
    if s ≤ c.toNat && c.toNat ≤ s + 9 then some (c.toNat - s) else none)

/-- The codepoint ranges where str.isdigit() is true but the character is not
a decimal digit (superscripts, circled digits, and the like); int() raises on
these. -/
def otherDigitRanges : List (Nat × Nat) :=
  [(0xB2, 0xB3), (0xB9, 0xB9), (0x1369, 0x1371), (0x19DA, 0x19DA),
   (0x2070, 0x2070), (0x2074, 0x2079), (0x2080, 0x2089), (0x2460, 0x2468),
   (0x2474, 0x247C), (0x2488, 0x2490), (0x24EA, 0x24EA), (0x24F5, 0x24FD),
   (0x24FF, 0x24FF), (0x2776, 0x277E), (0x2780, 0x2788), (0x278A, 0x2792),
   (0x10A40, 0x10A43), (0x10E60, 0x10E68), (0x11052, 0x1105A),
   (0x1F100, 0x1F10A)]

/-- A digit-type character that is not a decimal digit. -/
def isOtherDigit (c : Char) : Bool :=
  otherDigitRanges.any (fun r => r.1 ≤ c.toNat && c.toNat ≤ r.2)

/-- Python str.isdigit() on one character. -/
def pyIsDigitChar (c : Char) : Bool := (decDigitVal c).isSome || isOtherDigit c

/-- Python str.isdigit() on a token: nonempty and every character digit-type. -/
def pyIsdigitStr (l : List Char) : Bool := l ≠ [] && l.all pyIsDigitChar

/-- Python int() on a token that passed isdigit: succeeds with the base-10
value when every character is a decimal digit, raises (none) when some
digit-type character has no decimal value, such as a superscript. -/
def pyIntFromDigits (l : List Char) : Option Nat :=
  if l.all (fun c => (decDigitVal c).isSome) then
    some (l.foldl (fun a c => a * 10 + (decDigitVal c).getD 0) 0)
  else none

/-- Decimal digit characters of a natural number. -/
def natDigits (z : Nat) : List Char := (Nat.repr z).toList

/-! The database rows visible to the final query (src/app.py lines 621-652). -/

structure BpsModelRow where
  bps_model_id : String
  vegetation_type : Option String
  map_zones : Option String
  document : Option String
  vegetation_description : Option String
  geographic_range : Option String
  biophysical_site_description : Option String
  scale_description : Option String
  issues_or_problems : Option String
  native_uncharacteristic_conditions : Option String
deriving DecidableEq

structure RefConRow where
  bps_model_id : String
  bps_name : Option String
deriving DecidableEq

structure FireFreqRow where
  bps_model_id : String
  severity : Option String
  return_interval : Int
deriving DecidableEq

structure Database where
  bps_models : List BpsModelRow
  ref_con_long : List RefConRow
  fire_frequency : List FireFreqRow

/-- One row of the joined SELECT before projection: a bps_models row together
with the bps_name of one matching ref_con_long row (none for the LEFT JOIN
null extension). -/
structure JoinedRow where
  bm : BpsModelRow
  bps_name : Option String
deriving DecidableEq

/-- The projected result row (the eleven selected columns). -/
structure ResultRow where
  bps_model_id : String
  vegetation_type : Option String
  map_zones : Option String
  document : Option String
  vegetation_description : Option String
  geographic_range : Option String
  biophysical_site_description : Option String
  scale_description : Option String
  issues_or_problems : Option String
  native_uncharacteristic_conditions : Option String
  bps_name : Option String
deriving DecidableEq

def project (j : JoinedRow) : ResultRow :=
  ⟨j.bm.bps_model_id, j.bm.vegetation_type, j.bm.map_zones, j.bm.document,
   j.bm.vegetation_description, j.bm.geographic_range,
   j.bm.biophysical_site_description, j.bm.scale_description,
   j.bm.issues_or_problems, j.bm.native_uncharacteristic_conditions,
   j.bps_name⟩

/-! SQL LIKE.  The patterns the app builds contain only literal characters and
the wildcard percent (an underscore in user input also acts as the SQL
single-character wildcard, which the matcher honours). -/

/-- Try a matcher on every suffix of the text (including the text itself). -/
def likeSuffixes (lm : List Char → Bool) : List Char → Bool
  | [] => lm []
  | c :: t => lm (c :: t) || likeSuffixes lm t

/-- SQLite LIKE on character lists: percent matches any run, underscore any
single character, other characters compare case-insensitively. -/
def likeMatch : List Char → List Char → Bool
  | [], s => s.isEmpty
  | c :: p, s =>
    if c = '%' then likeSuffixes (likeMatch p) s
    else
      match s with
      | [] => false
      | d :: t => if c = '_' then likeMatch p t else eqCI c d && likeMatch p t

/-- column LIKE pattern with SQL NULL semantics: NULL never matches. -/
def optLike (v : Option String) (pat : List Char) : Bool :=
  match v with
  | none => false
  | some s => likeMatch pat s.toList

/-! The filter model (sidebar state feeding the query builder,
src/app.py lines 543-652). -/

structure Filters where
  csv_model_ids : List String
  search_term : String
  selected_vegetation : String
  map_zone_input : String
  bps_name_search : String
  fire_filters : List (String × Int × Int)
  fire_ranges : List String
  res_limit : Nat

/-- The stripped comma-separated tokens of the map-zone input whose strip()
passes isdigit (src/app.py line 578, the filter of the comprehension). -/
def zoneTokens (input : String) : List (List Char) :=
  (splitSep ',' input.toList []).filterMap (fun t =>
    if pyIsdigitStr (pyStrip t) then some (pyStrip t) else none)

/-- Map-zone input parsing with the surrounding try/except (src/app.py lines
577-593): split on commas, keep the tokens whose strip() is a digit string,
convert with int().  When int() raises on some kept digit-type token, the
exception is caught by the except handler, a warning is shown, and the whole
zone filter is abandoned: that path is none. -/
def parseZonesE (input : String) : Option (List Nat) :=
  if (zoneTokens input).all (fun t => (pyIntFromDigits t).isSome) then
    some ((zoneTokens input).filterMap pyIntFromDigits)
  else Option.none

/-- One query condition, abstracting the SQL fragment together with the data
interpolated into its placeholders. -/
inductive Cond
  | csvIn (ids : List String)
  | textSearch (pat : List Char)
  | vegLike (pat : List Char)
  | zoneAny (zones : List Nat)
  | bpsNameLike (pat : List Char)
  | fireAll (specs : List (String × Int × Int))
deriving DecidableEq

/-- A bound query parameter. -/
inductive SqlParam
  | s (v : List Char)
  | i (v : Int)
deriving DecidableEq

/-- The bound parameters each condition pushes onto query_params, in order. -/
def condParams : Cond → List SqlParam
  | .csvIn ids => ids.map (fun v => .s v.toList)
  | .textSearch pat => List.replicate 6 (.s pat)
  | .vegLike pat => [.s pat]
  | .zoneAny zones => zones.flatMap (fun z =>
      [.s (['%', ',', ' '] ++ natDigits z ++ [',', '%']),
       .s (natDigits z ++ [',', '%']),
       .s (natDigits z),
       .s (['%'] ++ natDigits z ++ ['%'])])
  | .bpsNameLike pat => [.s pat]
  | .fireAll specs => specs.flatMap (fun sp => [.s sp.1.toList, .i sp.2.1, .i sp.2.2])

/-- The query builder (src/app.py lines 543-619): each sidebar input
contributes its condition exactly under the guards the code uses. -/
def buildConds (f : Filters) : List Cond :=
  let c1 : List Cond :=
    if f.csv_model_ids ≠ [] then [.csvIn f.csv_model_ids] else []
  let c2 : List Cond :=
    if f.csv_model_ids = [] ∧ f.search_term ≠ "" ∧ pyStrip f.search_term.toList ≠ [] then
      [.textSearch (['%'] ++ pyStrip f.search_term.toList ++ ['%'])]
    else []
  let c3 : List Cond :=
    if f.selected_vegetation ≠ "" ∧ f.selected_vegetation ≠ "All" then
      [.vegLike (f.selected_vegetation.toList ++ ['%'])]
    else []
  let c4 : List Cond :=
    if f.map_zone_input ≠ "" ∧ pyStrip f.map_zone_input.toList ≠ [] then
      match parseZonesE f.map_zone_input with
      | Option.none => []
      | some zones => if zones ≠ [] then [.zoneAny zones] else []
    else []
  let c5 : List Cond :=
    if f.bps_name_search ≠ "" ∧ pyStrip f.bps_name_search.toList ≠ [] then
      [.bpsNameLike (['%'] ++ pyStrip f.bps_name_search.toList ++ ['%'])]
    else []
  let fireSpecs := f.fire_filters.filter (fun sp => sp.1 ∈ f.fire_ranges)
  let c6 : List Cond :=
    if f.fire_filters ≠ [] ∧ fireSpecs ≠ [] then [.fireAll fireSpecs] else []
  c1 ++ c2 ++ c3 ++ c4 ++ c5 ++ c6

/-- All bound parameters of the final query, the LIMIT parameter last. -/
def queryParams (f : Filters) : List SqlParam :=
  (buildConds f).flatMap condParams ++ [.i (f.res_limit : Int)]

/-- The four-way disjunction generated for a single zone number
(src/app.py lines 583-589): zone in the middle with a space, zone at the
start, exact match, and the anywhere-substring fallback. -/
def zoneCondOne (z : Nat) (mz : Option String) : Bool :=
  optLike mz (['%', ',', ' '] ++ natDigits z ++ [',', '%']) ||
  optLike mz (natDigits z ++ [',', '%']) ||
  (match mz with | none => false | some v => v.toList = natDigits z) ||
  optLike mz (['%'] ++ natDigits z ++ ['%'])

/-- The EXISTS sub-query for one severity interval (src/app.py lines 607-616). -/
def fireCondOne (db : Database) (mid : String) (sev : String) (lo hi : Int) : Bool :=
  db.fire_frequency.any (fun r =>
    r.bps_model_id = mid && r.severity = some sev &&
    lo ≤ r.return_interval && r.return_interval ≤ hi)

/-- Evaluate one condition against a joined row. -/
def evalCond (db : Database) (r : JoinedRow) : Cond → Bool
  | .csvIn ids => ids.any (fun i => r.bm.bps_model_id = i)
  | .textSearch pat =>
      optLike (some r.bm.bps_model_id) pat ||
      optLike r.bm.vegetation_type pat ||
      optLike r.bm.geographic_range pat ||
      optLike r.bm.biophysical_site_description pat ||
      optLike r.bm.vegetation_description pat ||
      optLike r.bps_name pat
  | .vegLike pat => optLike r.bm.vegetation_type pat
  | .zoneAny zones => zones.any (fun z => zoneCondOne z r.bm.map_zones)
  | .bpsNameLike pat => optLike r.bps_name pat
  | .fireAll specs => specs.all (fun sp =>
      fireCondOne db r.bm.bps_model_id sp.1 sp.2.1 sp.2.2)

/-- The WHERE clause: all active conditions joined with AND. -/
def whereHolds (db : Database) (f : Filters) (r : JoinedRow) : Bool :=
  (buildConds f).all (evalCond db r)

/-- bps_models LEFT JOIN ref_con_long ON bps_model_id. -/
def leftJoinRows (db : Database) : List JoinedRow :=
  db.bps_models.flatMap (fun bm =>
    let ms := db.ref_con_long.filter (fun rc => rc.bps_model_id = bm.bps_model_id)
    if ms = [] then [⟨bm, none⟩] else ms.map (fun rc => ⟨bm, rc.bps_name⟩))

/-- Insert a result row into a list sorted by model identifier. -/
def insertRow (r : ResultRow) : List ResultRow → List ResultRow
  | [] => [r]
  | y :: ys => if strLe r.bps_model_id y.bps_model_id then r :: y :: ys
               else y :: insertRow r ys

/-- ORDER BY bm.bps_model_id via insertion sort. -/
def sortRows (l : List ResultRow) : List ResultRow := l.foldr insertRow []

/-- Ascending model-identifier order between result rows. -/
def rowLe (a b : ResultRow) : Prop := strLe a.bps_model_id b.bps_model_id = true

/-- The final query (src/app.py lines 621-652): SELECT DISTINCT the projected
columns FROM the left join WHERE all conditions hold, ORDER BY model id,
LIMIT the result cap.  DISTINCT removes duplicates of the whole projected
row. -/
def runQuery (db : Database) (f : Filters) : List ResultRow :=
  (sortRows ((((leftJoinRows db).filter (whereHolds db f)).map project).dedup)).take
    f.res_limit

/-! The ZIP export loop (src/app.py lines 1028-1052): for each selected model
id, take the first matching row of the displayed dataframe, and when its
document field is set and the file exists on disk, add the file to the
archive under its stored name. -/

/-- The archive name contributed by one selected model id, none when the model
is absent from the result set, has no document, or the file is missing. -/
def docForModel (df : List ResultRow) (disk : List String) (mid : String) :
    Option String :=
  match df.find? (fun r => r.bps_model_id = mid) with
  | none => none
  | some row =>
    match row.document with
    | none => none
    | some d => if d ∈ disk then some d else none

/-- The sequence of entry names written into the ZIP archive. -/
def zipEntries (selected : List String) (df : List ResultRow)
    (disk : List String) : List String :=
  selected.filterMap (docForModel df disk)

/-! The regular-expression subset generated by the name highlighter
(src/app.py lines 142-278).  Every pattern the code builds is a word-boundary
anchor, then literal pieces joined by mandatory whitespace, then a
word-boundary anchor; matching is case-insensitive. -/

/-- One pattern element: a literal piece (matched case-insensitively) or a
mandatory whitespace run. -/
inductive PatElem
  | lit (cs : List Char)
  | ws
deriving DecidableEq

/-- Python re word characters, ASCII part. -/
def isWordChar (c : Char) : Bool :=
  ('a' ≤ c && c ≤ 'z') || ('A' ≤ c && c ≤ 'Z') || ('0' ≤ c && c ≤ '9') || c = '_'

def isWordO : Option Char → Bool
  | none => false
  | some c => isWordChar c

/-- A word boundary sits between two positions of different word-ness; the
edge of the text counts as non-word. -/
def boundaryOK (a b : Option Char) : Bool := isWordO a != isWordO b

/-- Strip a literal piece case-insensitively off the front of the text,
returning the rest and the last consumed character. -/
def stripCI : List Char → List Char → Option Char → Option (List Char × Option Char)
  | [], s, last => some (s, last)
  | _ :: _, [], _ => none
  | c :: cs, d :: ds, _ => if eqCI c d then stripCI cs ds (some d) else none

/-- Match the pattern elements at the front of the text.  A whitespace element
consumes a maximal nonempty whitespace run (the literal that follows never
starts with whitespace, so maximal munch is exact for these patterns). -/
def matchElems : List PatElem → List Char → Option Char → Option (List Char × Option Char)
  | [], s, last => some (s, last)
  | .lit l :: ps, s, last =>
    match stripCI l s last with
    | none => none
    | some (s', last') => matchElems ps s' last'
  | .ws :: ps, s, _ =>
    match s with
    | [] => none
    | c :: rest =>
      if pyIsSpace c then
        matchElems ps ((c :: rest).dropWhile pyIsSpace)
          (some (((c :: rest).takeWhile pyIsSpace).getLastD c))
      else none

/-- Try to match the whole pattern at the current position, checking the word
boundary on both sides; prev is the character just before the position. -/
def tryMatch (pat : List PatElem) (prev : Option Char) (s : List Char) :
    Option (List Char × Option Char) :=
  if boundaryOK prev s.head? then
    match matchElems pat s prev with
    | none => none
    | some (remaining, lastC) =>
      if boundaryOK lastC remaining.head? then some (remaining, lastC) else none
  else none

/-- re.sub scanning: at each position try the pattern; on a match emit the
replacement and continue after the matched span (boundaries keep being judged
against the original text, as re.sub does).  Fuel is the text length, enough
because every step consumes at least one character. -/
def subAuxF (pat : List PatElem) (repl : List Char) :
    Nat → Option Char → List Char → List Char
  | 0, _, s => s
  | Nat.succ fuel, prev, s =>
    match s with
    | [] => []
    | c :: rest =>
      match tryMatch pat prev s with
      | some (remaining, lastC) =>
        if remaining.length < s.length then
          repl ++ subAuxF pat repl fuel lastC remaining
        else c :: subAuxF pat repl fuel (some c) rest
      | none => c :: subAuxF pat repl fuel (some c) rest

/-- re.sub(pattern, replacement, text, flags=re.IGNORECASE) for the pattern
subset. -/
def subAll (pat : List PatElem) (repl : List Char) (s : List Char) : List Char :=
  subAuxF pat repl s.length none s

/-- Markdown emphasis wrapper. -/
def wrapMd (r : List Char) : List Char := ('*' :: r) ++ ['*']

/-- HTML italics wrapper. -/
def wrapHtml (r : List Char) : List Char :=
  ('<' :: 'i' :: '>' :: r) ++ ['<', '/', 'i', '>']

/-- The subspecies marker tokens recognised between species and subspecies
epithet (compared lowercased). -/
def subspMarkers : List (List Char) :=
  ["subsp.", "ssp.", "subspecies", "var.", "variety"].map String.toList

/-- The ordered pattern/replacement list one species name generates
(src/app.py lines 186-205), given the stripped name n split as
genus :: species :: restParts. -/
def buildPatterns (n genus sp : List Char) (restParts : List (List Char)) :
    List (List PatElem × List Char) :=
  let gl : List Char := match genus with | [] => [] | g0 :: _ => [g0]
  let base : List (List PatElem × List Char) :=
    [([.lit n], n),
     ([.lit genus, .ws, .lit sp], genus ++ [' '] ++ sp),
     ([.lit (gl ++ ['.']), .ws, .lit sp], gl ++ ['.', ' '] ++ sp),
     ([.lit gl, .ws, .lit sp], gl ++ [' '] ++ sp)]
  match restParts with
  | p2 :: p3 :: _ =>
    if (p2.map Char.toLower) ∈ subspMarkers then
      let sub := p3
      let subHead : List Char := match sub with | [] => [] | s0 :: _ => [s0]
      let subTail : List Char := match sub with | [] => [] | _ :: t => t
      base ++
        [([.lit genus, .ws, .lit sp, .ws, .lit ("subsp.".toList), .ws, .lit sub],
          genus ++ [' '] ++ sp ++ (" subsp. ".toList) ++ sub),
         ([.lit genus, .ws, .lit sp, .ws, .lit ("ssp.".toList), .ws, .lit sub],
          genus ++ [' '] ++ sp ++ (" ssp. ".toList) ++ sub),
         ([.lit (gl ++ ['.']), .ws, .lit sp, .ws, .lit ("subsp.".toList), .ws, .lit sub],
          gl ++ ['.', ' '] ++ sp ++ (" subsp. ".toList) ++ sub),
         ([.lit (gl ++ ['.']), .ws, .lit sp, .ws, .lit ("ssp.".toList), .ws, .lit sub],
          gl ++ ['.', ' '] ++ sp ++ (" ssp. ".toList) ++ sub),
         ([.lit genus, .ws, .lit sp, .ws, .lit ("ssp.".toList), .ws, .lit subHead, .ws, .lit subTail],
          genus ++ [' '] ++ sp ++ (" ssp. ".toList) ++ sub)]
    else base
  | _ => base

/-- The guarded replacement pass for one pattern: skip when the wrapped
replacement (in either marker) already occurs anywhere in the text, else
substitute every match. -/
def guardedSub (wrap other : List Char → List Char)
    (t : List Char) (pr : List PatElem × List Char) : List Char :=
  if infixB (wrap pr.2) t || infixB (other pr.2) t then t
  else subAll pr.1 (wrap pr.2) t

/-- The per-species body of the highlighter loop: guards on length and token
count, then the patterns applied in reversed construction order. -/
def italSpecies (wrap other : List Char → List Char)
    (text : List Char) (name : String) : List Char :=
  if name = "" ∨ (pyStrip name.toList).length < 3 then text
  else
    match splitWS (pyStrip name.toList) [] with
    | [] => text
    | [_] => text
    | genus :: sp :: restParts =>
      ((buildPatterns (pyStrip name.toList) genus sp restParts).reverse).foldl
        (guardedSub wrap other) text

/-- Python values a pandas text cell can take: None, NaN, or a string. -/
inductive PyVal
  | none
  | nan
  | str (s : String)
deriving DecidableEq

/-- italicize_scientific_names_from_table (src/app.py lines 142-214): the
markdown-marker highlighter. -/
def italicize_scientific_names_from_table (text : PyVal)
    (species_list : List String) : PyVal :=
  match text with
  | .none => .none
  | .nan => .nan
  | .str s =>
    if s = "" ∨ species_list = [] then .str s
    else .str (String.mk (species_list.foldl (italSpecies wrapMd wrapHtml) s.toList))

/-- italicize_scientific_names_from_table_html (src/app.py lines 216-278):
identical control flow with HTML italic markers.  Its subspecies detection and
pattern list coincide with the markdown variant for the names it accepts. -/
def italicize_scientific_names_from_table_html (text : PyVal)
    (species_list : List String) : PyVal :=
  match text with
  | .none => .none
  | .nan => .nan
  | .str s =>
    if s = "" ∨ species_list = [] then .str s
    else .str (String.mk (species_list.foldl (italSpecies wrapHtml wrapMd) s.toList))

/-! Helper constructors for stating hyperproperties over the filter state, and
concrete fixtures used by the example-level theorems. -/

/-- Replace only the free-text search term. -/
def withTerm (f : Filters) (t : String) : Filters :=
  ⟨f.csv_model_ids, t, f.selected_vegetation, f.map_zone_input, f.bps_name_search,
   f.fire_filters, f.fire_ranges, f.res_limit⟩

/-- Replace only the map-zone input string. -/
def withZoneInput (f : Filters) (z : String) : Filters :=
  ⟨f.csv_model_ids, f.search_term, f.selected_vegetation, z, f.bps_name_search,
   f.fire_filters, f.fire_ranges, f.res_limit⟩

/-- A bps_models row with only the identifier and map_zones populated. -/
def bmRow (id : String) (mz : Option String) : BpsModelRow :=
  ⟨id, Option.none, mz, Option.none, Option.none, Option.none, Option.none,
   Option.none, Option.none, Option.none⟩

/-- Fixture: one model joined to two reference-condition rows with different
names. -/
def dupDb : Database :=
  ⟨[bmRow "A" Option.none], [⟨"A", some "Oak Woodland"⟩, ⟨"A", some "Oak Savanna"⟩], []⟩

/-- Fixture: a CSV allowlist selecting the one model, result cap 50. -/
def dupF : Filters := ⟨["A"], "", "All", "", "", [], [], 50⟩

/-- Fixture: three models, one Replacement row at 75 years, one at 120 years,
one with no fire row. -/
def fireExDb : Database :=
  ⟨[bmRow "BpS-A" Option.none, bmRow "BpS-B" Option.none, bmRow "BpS-C" Option.none],
   [],
   [⟨"BpS-A", some "Replacement", 75⟩, ⟨"BpS-B", some "Replacement", 120⟩]⟩

/-- Fixture: a Replacement interval filter of [50, 100]. -/
def fireExF : Filters :=
  ⟨[], "", "All", "", "", [("Replacement", 50, 100)], ["Replacement"], 50⟩

/-- Fixture filters with no active condition, for congruence witnesses. -/
def emptyF : Filters := ⟨[], "", "All", "", "", [], [], 50⟩

/-- Fixture: two displayed rows, distinct models referencing the same
document file. -/
def zipDf : List ResultRow :=
  [⟨"A", Option.none, Option.none, some "shared.docx", Option.none, Option.none,
    Option.none, Option.none, Option.none, Option.none, Option.none⟩,
   ⟨"B", Option.none, Option.none, some "shared.docx", Option.none, Option.none,
    Option.none, Option.none, Option.none, Option.none, Option.none⟩]

/-! Theorems. -/

set_option maxRecDepth 4096

/-- Claim C7: the name highlighter uses whole-word, case-insensitive matching:
with species list [Quercus garryana], occurrences of Quercus garryana and of
Q. garryana are wrapped in the emphasis marker, while Quercusgarryana (the
name fused into a longer word) is left unchanged. -/
theorem c7_word_boundary_matching :
    italicize_scientific_names_from_table (.str "The Quercus garryana stands")
        ["Quercus garryana"] = .str "The *Quercus garryana* stands" ∧
    italicize_scientific_names_from_table (.str "The Q. garryana stands")
        ["Quercus garryana"] = .str "The *Q. garryana* stands" ∧
    italicize_scientific_names_from_table (.str "The Quercusgarryana stands")
        ["Quercus garryana"] = .str "The Quercusgarryana stands" := by
  decide

/-- Claim C5, evaluation at the failing input: with a species list holding two
case-variants of the same name, one application of the markdown highlighter
yields a double-wrapped name and a second application wraps it twice more, so
the function is not idempotent; the HTML variant fails the same way.  The
replace-only-if-not-already-italicized guard compares the exact-case wrapped
replacement against the whole text, which the case-variant entry defeats. -/
theorem c5_highlighter_not_idempotent :
    italicize_scientific_names_from_table (.str "Quercus garryana")
        ["Quercus garryana", "Quercus Garryana"] = .str "**Quercus Garryana**" ∧
    italicize_scientific_names_from_table (.str "**Quercus Garryana**")
        ["Quercus garryana", "Quercus Garryana"] = .str "****Quercus Garryana****" ∧
    italicize_scientific_names_from_table
        (italicize_scientific_names_from_table (.str "Quercus garryana")
          ["Quercus garryana", "Quercus Garryana"])
        ["Quercus garryana", "Quercus Garryana"] ≠
      italicize_scientific_names_from_table (.str "Quercus garryana")
        ["Quercus garryana", "Quercus Garryana"] ∧
    italicize_scientific_names_from_table_html
        (italicize_scientific_names_from_table_html (.str "Quercus garryana")
          ["Quercus garryana", "Quercus Garryana"])
        ["Quercus garryana", "Quercus Garryana"] ≠
      italicize_scientific_names_from_table_html (.str "Quercus garryana")
        ["Quercus garryana", "Quercus Garryana"] := by
  refine ⟨by decide, by decide, by decide, by decide⟩

/-- Claim C6, counterexample: the two orders of the same two-element species
list (a permutation of each other) produce different outputs on the same
text, so the highlighter is not order-independent. -/
theorem c6_order_dependence_counterexample :
    List.Perm ["Quercus Garryana", "Quercus garryana"]
      ["Quercus garryana", "Quercus Garryana"] ∧
    italicize_scientific_names_from_table (.str "Quercus garryana")
        ["Quercus garryana", "Quercus Garryana"] = .str "**Quercus Garryana**" ∧
    italicize_scientific_names_from_table (.str "Quercus garryana")
        ["Quercus Garryana", "Quercus garryana"] = .str "**Quercus garryana**" ∧
    italicize_scientific_names_from_table (.str "Quercus garryana")
        ["Quercus garryana", "Quercus Garryana"] ≠
      italicize_scientific_names_from_table (.str "Quercus garryana")
        ["Quercus Garryana", "Quercus garryana"] := by
  refine ⟨List.Perm.swap _ _ _, by decide, by decide, by decide⟩

/-- Claim C6 as amended: the highlighter output is invariant under
permutations of a single-element species list; with several entries whose
patterns can fire on occurrences wrapped by another entry (such as
case-variant duplicates), different orders can give different outputs. -/
theorem c6_permutation_invariance_amended (t : PyVal) (s : String)
    (l : List String) (h : l.Perm [s]) :
    italicize_scientific_names_from_table t l =
      italicize_scientific_names_from_table t [s] ∧
    italicize_scientific_names_from_table_html t l =
      italicize_scientific_names_from_table_html t [s] := by
  rw [List.perm_singleton.mp h]
  exact ⟨rfl, rfl⟩

/-- Witness for c6_permutation_invariance_amended at a concrete permutation. -/
theorem c6_permutation_invariance_amended_witness :
    italicize_scientific_names_from_table (.str "Quercus garryana here")
        ["Quercus garryana"] =
      italicize_scientific_names_from_table (.str "Quercus garryana here")
        ["Quercus garryana"] ∧
    italicize_scientific_names_from_table_html (.str "Quercus garryana here")
        ["Quercus garryana"] =
      italicize_scientific_names_from_table_html (.str "Quercus garryana here")
        ["Quercus garryana"] :=
  c6_permutation_invariance_amended (.str "Quercus garryana here")
    "Quercus garryana" ["Quercus garryana"] (List.Perm.refl _)

theorem likeSuffixes_head (lm : List Char → Bool) (t : List Char)
    (h : lm t = true) : likeSuffixes lm t = true := by
  cases t with
  | nil => simpa [likeSuffixes] using h
  | cons c t => simp [likeSuffixes, h]

theorem likeSuffixes_intro (lm : List Char → Bool) (a t : List Char)
    (h : lm t = true) : likeSuffixes lm (a ++ t) = true := by
  induction a with
  | nil => simpa using likeSuffixes_head lm t h
  | cons c a ih => simp [likeSuffixes, ih]

theorem likeMatch_pct_nil (v : List Char) :
    likeSuffixes (likeMatch []) v = true := by
  induction v with
  | nil => simp [likeSuffixes, likeMatch, List.isEmpty]
  | cons c v ih => simp [likeSuffixes, ih]

theorem likeMatch_lit_pct (l : List Char) (hl : ∀ c ∈ l, c ≠ '%' ∧ c ≠ '_')
    (v : List Char) : likeMatch (l ++ ['%']) (l ++ v) = true := by
  induction l with
  | nil => simpa [likeMatch] using likeMatch_pct_nil v
  | cons c l ih =>
    have hc := hl c (by simp)
    have hrest : ∀ x ∈ l, x ≠ '%' ∧ x ≠ '_' := fun x hx => hl x (by simp [hx])
    simp [likeMatch, hc.1, hc.2, eqCI, ih hrest]

theorem eqCI_refl (c : Char) : eqCI c c = true := by simp [eqCI]

theorem isPrefixOfB_decomp : ∀ (n s : List Char), isPrefixOfB n s = true →
    ∃ v, s = n ++ v := by
  intro n
  induction n with
  | nil => intro s _; exact ⟨s, rfl⟩
  | cons c n ih =>
    intro s h
    cases s with
    | nil => simp [isPrefixOfB] at h
    | cons d t =>
      simp only [isPrefixOfB, Bool.and_eq_true, decide_eq_true_eq] at h
      obtain ⟨v, hv⟩ := ih t h.2
      exact ⟨v, by simp [h.1, hv]⟩

theorem infixB_decomp : ∀ (n s : List Char), infixB n s = true →
    ∃ a v, s = a ++ (n ++ v) := by
  intro n s
  induction s with
  | nil =>
    intro h
    obtain ⟨v, hv⟩ := isPrefixOfB_decomp n [] (by simpa [infixB] using h)
    exact ⟨[], v, hv⟩
  | cons c t ih =>
    intro h
    simp only [infixB, Bool.or_eq_true] at h
    rcases h with h | h
    · obtain ⟨v, hv⟩ := isPrefixOfB_decomp n (c :: t) h
      exact ⟨[], v, hv⟩
    · obtain ⟨a, v, hv⟩ := ih h
      exact ⟨c :: a, v, by simp [hv]⟩

/-- Claim C2 as amended: all four delimited stored fields match zone 7, and so
do 17 and 71, because the last generated sub-pattern is an anywhere-substring
fallback; in general the condition is satisfied whenever the decimal digits of
the zone occur anywhere as a substring of the stored field. -/
theorem c2_zone_matching_amended :
    (zoneCondOne 7 (some "1,7,12") = true ∧ zoneCondOne 7 (some "7,1") = true ∧
     zoneCondOne 7 (some "7") = true ∧ zoneCondOne 7 (some "1, 7, 12") = true ∧
     zoneCondOne 7 (some "17") = true ∧ zoneCondOne 7 (some "71") = true) ∧
    ∀ (z : Nat) (s : String), (∀ c ∈ natDigits z, c ≠ '%' ∧ c ≠ '_') →
      infixB (natDigits z) s.toList = true → zoneCondOne z (some s) = true := by
  refine ⟨by decide, ?_⟩
  intro z s hdig hinf
  obtain ⟨a, v, hv⟩ := infixB_decomp _ _ hinf
  have hlast : optLike (some s) (['%'] ++ natDigits z ++ ['%']) = true := by
    show likeMatch ('%' :: (natDigits z ++ ['%'])) s.toList = true
    rw [hv]
    simp only [likeMatch, if_pos rfl]
    exact likeSuffixes_intro _ a _ (likeMatch_lit_pct _ hdig v)
  simp only [zoneCondOne, Bool.or_eq_true]
  right
  exact hlast

/-- Witness for the general part of c2_zone_matching_amended: zone 7 against a
stored field containing 17. -/
theorem c2_zone_matching_amended_witness :
    zoneCondOne 7 (some "zones 17 and 3") = true :=
  c2_zone_matching_amended.2 7 "zones 17 and 3" (by decide) (by decide)

/-- Claim C2, counterexample: with zone list [7], the stored fields 17 and 71
do match the generated condition, through the final anywhere-substring
fallback pattern, contradicting the claimed boundary discipline. -/
theorem c2_zone_substring_counterexample :
    zoneCondOne 7 (some "17") = true ∧ zoneCondOne 7 (some "71") = true := by
  decide

theorem runQuery_congr (db : Database) (f g : Filters)
    (hc : buildConds f = buildConds g) (hl : f.res_limit = g.res_limit) :
    runQuery db f = runQuery db g := by
  unfold runQuery whereHolds
  simp only [hc, hl]

/-- Claim C3: once the CSV identifier allowlist is non-empty, the free-text
search term has no effect: any two terms produce the same condition list, the
same bound parameters and the same query result, the allowlist IN-condition is
present, and no text-search condition appears at all. -/
theorem c3_allowlist_shadows_text_search (f : Filters) (t1 t2 : String)
    (db : Database) (h : f.csv_model_ids ≠ []) :
    buildConds (withTerm f t1) = buildConds (withTerm f t2) ∧
    queryParams (withTerm f t1) = queryParams (withTerm f t2) ∧
    runQuery db (withTerm f t1) = runQuery db (withTerm f t2) ∧
    Cond.csvIn f.csv_model_ids ∈ buildConds (withTerm f t1) ∧
    ∀ p, Cond.textSearch p ∉ buildConds (withTerm f t1) := by
  have hb : buildConds (withTerm f t1) = buildConds (withTerm f t2) := by
    simp [buildConds, withTerm, h]
  refine ⟨hb, by unfold queryParams; rw [hb]; rfl, runQuery_congr db _ _ hb rfl, ?_, ?_⟩
  · simp [buildConds, withTerm, h]
  · intro p hp
    simp only [buildConds, withTerm, h, List.mem_append] at hp
    rcases hp with ((((hp | hp) | hp) | hp) | hp) | hp <;>
      revert hp <;> (repeat split) <;> simp_all

/-- Witness for c3_allowlist_shadows_text_search: the allowlist [A] against
two different search terms. -/
theorem c3_allowlist_shadows_text_search_witness :
    buildConds (withTerm dupF "oak") = buildConds (withTerm dupF "pine") ∧
    queryParams (withTerm dupF "oak") = queryParams (withTerm dupF "pine") ∧
    runQuery dupDb (withTerm dupF "oak") = runQuery dupDb (withTerm dupF "pine") ∧
    Cond.csvIn dupF.csv_model_ids ∈ buildConds (withTerm dupF "oak") ∧
    ∀ p, Cond.textSearch p ∉ buildConds (withTerm dupF "oak") :=
  c3_allowlist_shadows_text_search dupF "oak" "pine" dupDb (by decide)

theorem pyStrip_subset (l : List Char) : ∀ c ∈ pyStrip l, c ∈ l := by
  intro c hc
  unfold pyStrip at hc
  rw [List.mem_reverse] at hc
  have h1 := (List.dropWhile_suffix pyIsSpace).sublist.subset hc
  rw [List.mem_reverse] at h1
  exact (List.dropWhile_suffix pyIsSpace).sublist.subset h1

theorem splitSep_chars (sep : Char) : ∀ (l acc t : List Char),
    t ∈ splitSep sep l acc → ∀ c ∈ t, c ∈ l ∨ c ∈ acc := by
  intro l
  induction l with
  | nil =>
    intro acc t ht c hc
    simp only [splitSep, List.mem_singleton] at ht
    subst ht
    exact Or.inr (List.mem_reverse.mp hc)
  | cons x xs ih =>
    intro acc t ht c hc
    unfold splitSep at ht
    by_cases hx : x = sep
    · rw [if_pos hx] at ht
      rcases List.mem_cons.mp ht with h1 | h1
      · subst h1
        exact Or.inr (List.mem_reverse.mp hc)
      · rcases ih [] t h1 c hc with h2 | h2
        · exact Or.inl (List.mem_cons_of_mem _ h2)
        · simp at h2
    · rw [if_neg hx] at ht
      rcases ih (x :: acc) t ht c hc with h2 | h2
      · exact Or.inl (List.mem_cons_of_mem _ h2)
      · rcases List.mem_cons.mp h2 with h3 | h3
        · subst h3
          exact Or.inl (List.mem_cons_self _ _)
        · exact Or.inr h3

theorem isOtherDigit_large (c : Char) (h : isOtherDigit c = true) :
    127 < c.toNat := by
  simp only [isOtherDigit, otherDigitRanges, List.any_eq_true, List.mem_cons,
    Bool.and_eq_true, decide_eq_true_eq] at h
  obtain ⟨r, hr, h1, h2⟩ := h
  simp only [List.not_mem_nil, or_false] at hr
  rcases hr with rfl | rfl | rfl | rfl | rfl | rfl | rfl | rfl | rfl | rfl |
    rfl | rfl | rfl | rfl | rfl | rfl | rfl | rfl | rfl | rfl <;>
    simp only at h1 h2 <;> omega

theorem ascii_digit_decimal (c : Char) (hc : c.toNat ≤ 127)
    (hd : pyIsDigitChar c = true) : (decDigitVal c).isSome = true := by
  have hd2 : (decDigitVal c).isSome = true ∨ isOtherDigit c = true := by
    simpa [pyIsDigitChar] using hd
  rcases hd2 with h | h
  · exact h
  · exact absurd (isOtherDigit_large c h) (by omega)

theorem parseZonesE_ascii (input : String)
    (h : ∀ c ∈ input.toList, c.toNat ≤ 127) :
    parseZonesE input ≠ Option.none := by
  have hall : (zoneTokens input).all (fun t => (pyIntFromDigits t).isSome) = true := by
    rw [List.all_eq_true]
    intro t ht
    obtain ⟨piece, hp, he⟩ := List.mem_filterMap.mp ht
    by_cases hd : pyIsdigitStr (pyStrip piece) = true
    · rw [if_pos hd] at he
      injection he with he2
      subst he2
      have hdigits : ∀ c ∈ pyStrip piece, pyIsDigitChar c = true := by
        have h2 := hd
        simp only [pyIsdigitStr, Bool.and_eq_true, List.all_eq_true, ne_eq,
          decide_eq_true_eq] at h2
        exact h2.2
      have hdec : (pyStrip piece).all (fun c => (decDigitVal c).isSome) = true := by
        rw [List.all_eq_true]
        intro c hcmem
        have hc1 : c ∈ input.toList := by
          rcases splitSep_chars ',' input.toList [] piece hp c
              (pyStrip_subset piece c hcmem) with h1 | h1
          · exact h1
          · simp at h1
        exact ascii_digit_decimal c (h c hc1) (hdigits c hcmem)
      simp [pyIntFromDigits, hdec]
    · rw [if_neg hd] at he
      cases he
  unfold parseZonesE
  rw [if_pos hall]
  simp

/-- Claim C9, counterexample: on input 7,² the superscript token passes
isdigit, int() raises inside the comprehension, and the except handler drops
the whole zone filter with a warning, so no zone condition at all is built;
the claim instead requires the non-integer token to be silently dropped with
the valid zone 7 still applying, as it does for input 7 alone. -/
theorem c9_zone_error_path_counterexample :
    buildConds (withZoneInput emptyF "7,²") = [] ∧
    buildConds (withZoneInput emptyF "7") = [Cond.zoneAny [7]] := by
  refine ⟨by decide, by decide⟩

/-- Claim C9 as amended: tokens whose strip() fails isdigit (signed numbers,
decimals, words) are silently dropped, non-ASCII decimal digits parse like
ASCII ones, and an all-ASCII input can never reach the exception handler; but
a token of digit-type characters that int() cannot parse, such as a
superscript, raises inside the comprehension and the except handler drops the
entire zone filter, valid tokens included, with a warning.  On every such path
no exception propagates: the zone field contributes no condition and the query
with the remaining filters still runs. -/
theorem c9_zone_error_handling_amended :
    parseZonesE "7, abc, 12, 3x, -4, 2.5" = some [7, 12] ∧
    buildConds (withZoneInput emptyF "٣") = [Cond.zoneAny [3]] ∧
    (∀ input : String, (∀ c ∈ input.toList, c.toNat ≤ 127) →
      parseZonesE input ≠ Option.none) ∧
    (∀ (input : String) (f : Filters) (db : Database),
      parseZonesE input = Option.none ∨ parseZonesE input = some [] →
      buildConds (withZoneInput f input) = buildConds (withZoneInput f "") ∧
      runQuery db (withZoneInput f input) = runQuery db (withZoneInput f "")) := by
  refine ⟨by decide, by decide, parseZonesE_ascii, ?_⟩
  intro input f db h
  have hb : buildConds (withZoneInput f input) = buildConds (withZoneInput f "") := by
    rcases h with h | h <;> simp [buildConds, withZoneInput, h]
  exact ⟨hb, runQuery_congr db _ _ hb rfl⟩

/-- Witness for c9_zone_error_handling_amended: the ASCII input 8, 9 never
reaches the exception handler, and the superscript-only input takes the
warning path, contributing nothing while the query still runs. -/
theorem c9_zone_error_handling_amended_witness :
    parseZonesE "8, 9" ≠ Option.none ∧
    (buildConds (withZoneInput emptyF "²") = buildConds (withZoneInput emptyF "") ∧
     runQuery dupDb (withZoneInput emptyF "²") =
       runQuery dupDb (withZoneInput emptyF "")) :=
  ⟨c9_zone_error_handling_amended.2.2.1 "8, 9" (by decide),
   c9_zone_error_handling_amended.2.2.2 "²" emptyF dupDb (Or.inl (by decide))⟩

/-- Claim C4: a per-severity interval condition holds of a model exactly when
some fire_frequency row of that model has the severity and a return interval
within the inclusive bounds; several severity conditions conjoin with AND; and
on the concrete fixture, the Replacement [50,100] filter keeps the model with
a 75-year row while excluding the 120-year model and the model with no
Replacement row. -/
theorem c4_fire_frequency_filter :
    (∀ (db : Database) (mid sev : String) (lo hi : Int),
      fireCondOne db mid sev lo hi = true ↔
        ∃ r ∈ db.fire_frequency, r.bps_model_id = mid ∧ r.severity = some sev ∧
          lo ≤ r.return_interval ∧ r.return_interval ≤ hi) ∧
    (∀ (db : Database) (j : JoinedRow) (specs : List (String × Int × Int)),
      evalCond db j (.fireAll specs) = true ↔
        ∀ sp ∈ specs, fireCondOne db j.bm.bps_model_id sp.1 sp.2.1 sp.2.2 = true) ∧
    (runQuery fireExDb fireExF).map (fun r => r.bps_model_id) = ["BpS-A"] := by
  refine ⟨?_, ?_, by decide⟩
  · intro db mid sev lo hi
    simp [fireCondOne, List.any_eq_true, and_assoc]
  · intro db j specs
    simp [evalCond, List.all_eq_true]

/-- Witness for c4_fire_frequency_filter: extracting the 75-year Replacement
row of the included model from the fixture. -/
theorem c4_fire_frequency_filter_witness :
    ∃ r ∈ fireExDb.fire_frequency, r.bps_model_id = "BpS-A" ∧
      r.severity = some "Replacement" ∧
      (50 : Int) ≤ r.return_interval ∧ r.return_interval ≤ 100 :=
  (c4_fire_frequency_filter.1 fireExDb "BpS-A" "Replacement" 50 100).mp (by decide)

theorem docForModel_eq_some (df : List ResultRow) (disk : List String)
    (mid : String) (d : String) :
    docForModel df disk mid = some d ↔
      ∃ row, df.find? (fun r => r.bps_model_id = mid) = some row ∧
        row.document = some d ∧ d ∈ disk := by
  constructor
  · intro h
    unfold docForModel at h
    split at h
    · cases h
    · rename_i row hf
      split at h
      · cases h
      · rename_i d' hd
        split at h
        · rename_i hm
          injection h with h2
          subst h2
          exact ⟨row, hf, hd, hm⟩
        · cases h
  · rintro ⟨row, hrow, hdoc, hdisk⟩
    simp [docForModel, hrow, hdoc, hdisk]

/-- Claim C8, counterexample: two selected models referencing the same
existing document produce two identical archive entries; the archive entry
list is not duplicate-free. -/
theorem c8_duplicate_entry_counterexample :
    zipEntries ["A", "B"] zipDf ["shared.docx"] = ["shared.docx", "shared.docx"] ∧
    ¬ (zipEntries ["A", "B"] zipDf ["shared.docx"]).Nodup := by
  refine ⟨by decide, by decide⟩

/-- Claim C8 as amended: an archive entry appears exactly for the documents
that are referenced by the first result-set row of a selected model and exist
on disk, stored under the original filename, one entry per contributing
selected model, so a filename shared by two selected models appears twice; a
selected model with no result row, no document, or a missing file contributes
nothing and never aborts the archive. -/
theorem c8_zip_archive_contents_amended (selected : List String)
    (df : List ResultRow) (disk : List String) :
    (∀ d, d ∈ zipEntries selected df disk ↔
      ∃ mid ∈ selected, ∃ row, df.find? (fun r => r.bps_model_id = mid) = some row ∧
        row.document = some d ∧ d ∈ disk) ∧
    (∀ mid rest, docForModel df disk mid = none →
      zipEntries (mid :: rest) df disk = zipEntries rest df disk) := by
  constructor
  · intro d
    simp only [zipEntries, List.mem_filterMap, docForModel_eq_some]
  · intro mid rest hnone
    simp [zipEntries, List.filterMap_cons, hnone]

/-- Witness for c8_zip_archive_contents_amended: the shared document is in the
fixture archive, and a model id absent from the result set is skipped. -/
theorem c8_zip_archive_contents_amended_witness :
    ("shared.docx" ∈ zipEntries ["A", "B"] zipDf ["shared.docx"] ↔
      ∃ mid ∈ ["A", "B"], ∃ row,
        zipDf.find? (fun r => r.bps_model_id = mid) = some row ∧
        row.document = some "shared.docx" ∧ "shared.docx" ∈ ["shared.docx"]) ∧
    zipEntries ["absent", "A"] zipDf ["shared.docx"] =
      zipEntries ["A"] zipDf ["shared.docx"] :=
  ⟨(c8_zip_archive_contents_amended ["A", "B"] zipDf ["shared.docx"]).1 "shared.docx",
   (c8_zip_archive_contents_amended ["absent", "A"] zipDf ["shared.docx"]).2
     "absent" ["A"] (by decide)⟩

theorem italSpecies_skip (wrap other : List Char → List Char)
    (text : List Char) (name : String)
    (h : (pyStrip name.toList).length < 3 ∨
      (splitWS (pyStrip name.toList) []).length < 2) :
    italSpecies wrap other text name = text := by
  unfold italSpecies
  rcases h with h | h
  · rw [if_pos (Or.inr h)]
  · by_cases h3 : name = "" ∨ (pyStrip name.toList).length < 3
    · rw [if_pos h3]
    · rw [if_neg h3]
      cases e : splitWS (pyStrip name.toList) [] with
      | nil => rfl
      | cons a rest =>
        cases rest with
        | nil => rfl
        | cons b rest2 => rw [e] at h; simp at h; omega

/-- Claim C10: the highlighter is the identity on degenerate inputs: a None,
NaN or empty text, or an empty species list, is returned unchanged, and a
species entry shorter than three characters after trimming, or with fewer than
two whitespace tokens, contributes no change; in both the markdown and the
HTML variant. -/
theorem c10_degenerate_inputs_identity :
    (∀ l, italicize_scientific_names_from_table .none l = .none ∧
      italicize_scientific_names_from_table .nan l = .nan ∧
      italicize_scientific_names_from_table (.str "") l = .str "" ∧
      italicize_scientific_names_from_table_html .none l = .none ∧
      italicize_scientific_names_from_table_html .nan l = .nan ∧
      italicize_scientific_names_from_table_html (.str "") l = .str "") ∧
    (∀ t, italicize_scientific_names_from_table t [] = t ∧
      italicize_scientific_names_from_table_html t [] = t) ∧
    (∀ (text : List Char) (name : String),
      (pyStrip name.toList).length < 3 ∨
        (splitWS (pyStrip name.toList) []).length < 2 →
      italSpecies wrapMd wrapHtml text name = text ∧
      italSpecies wrapHtml wrapMd text name = text) := by
  refine ⟨?_, ?_, ?_⟩
  · intro l
    refine ⟨rfl, rfl, ?_, rfl, rfl, ?_⟩ <;>
      simp [italicize_scientific_names_from_table,
        italicize_scientific_names_from_table_html]
  · intro t
    cases t <;>
      simp [italicize_scientific_names_from_table,
        italicize_scientific_names_from_table_html]
  · intro text name h
    exact ⟨italSpecies_skip _ _ text name h, italSpecies_skip _ _ text name h⟩

/-- Witness for c10_degenerate_inputs_identity: a two-character entry and a
one-token entry change nothing. -/
theorem c10_degenerate_inputs_identity_witness :
    ((pyStrip ("Qu" : String).toList).length < 3 ∨
      (splitWS (pyStrip ("Qu" : String).toList) []).length < 2) ∧
    italSpecies wrapMd wrapHtml ("Quercus stands" : String).toList "Qu" =
      ("Quercus stands" : String).toList ∧
    italSpecies wrapHtml wrapMd ("Quercus stands" : String).toList "Qu" =
      ("Quercus stands" : String).toList :=
  ⟨by decide,
   (c10_degenerate_inputs_identity.2.2 ("Quercus stands" : String).toList "Qu"
      (by decide)).1,
   (c10_degenerate_inputs_identity.2.2 ("Quercus stands" : String).toList "Qu"
      (by decide)).2⟩

theorem charListLe_total : ∀ (a b : List Char),
    charListLe a b = true ∨ charListLe b a = true := by
  intro a
  induction a with
  | nil => intro b; left; rfl
  | cons x xs ih =>
    intro b
    cases b with
    | nil => right; rfl
    | cons y ys =>
      rcases lt_trichotomy x y with h | h | h
      · left; simp [charListLe, h]
      · subst h
        rcases ih ys with h2 | h2
        · left; simp [charListLe, h2]
        · right; simp [charListLe, h2]
      · right; simp [charListLe, h]

theorem rowLe_total (a b : ResultRow) : rowLe a b ∨ rowLe b a :=
  charListLe_total _ _

theorem insertRow_chain (x : ResultRow) :
    ∀ l, List.Chain' rowLe l → List.Chain' rowLe (insertRow x l) := by
  intro l
  induction l with
  | nil => intro _; simp [insertRow]
  | cons y ys ih =>
    intro h
    unfold insertRow
    by_cases hxy : strLe x.bps_model_id y.bps_model_id = true
    · rw [if_pos hxy]
      exact List.chain'_cons.2 ⟨hxy, h⟩
    · rw [if_neg hxy]
      have hyh := (List.chain'_cons'.1 h).1
      have hys := (List.chain'_cons'.1 h).2
      apply List.chain'_cons'.2
      refine ⟨?_, ih hys⟩
      intro z hz
      cases ys with
      | nil =>
        simp [insertRow] at hz
        subst hz
        rcases rowLe_total x y with h1 | h1
        · exact absurd h1 hxy
        · exact h1
      | cons w ws =>
        unfold insertRow at hz
        by_cases hxw : strLe x.bps_model_id w.bps_model_id = true
        · rw [if_pos hxw] at hz
          simp at hz
          subst hz
          rcases rowLe_total x y with h1 | h1
          · exact absurd h1 hxy
          · exact h1
        · rw [if_neg hxw] at hz
          simp at hz
          subst hz
          exact hyh w rfl

theorem sortRows_chain (l : List ResultRow) : List.Chain' rowLe (sortRows l) := by
  unfold sortRows
  induction l with
  | nil => simp
  | cons x xs ih => exact insertRow_chain x _ ih

theorem insertRow_perm (x : ResultRow) : ∀ l, (insertRow x l).Perm (x :: l) := by
  intro l
  induction l with
  | nil => simp [insertRow]
  | cons y ys ih =>
    unfold insertRow
    by_cases h : strLe x.bps_model_id y.bps_model_id = true
    · rw [if_pos h]
    · rw [if_neg h]
      exact (ih.cons y).trans (List.Perm.swap x y ys)

theorem sortRows_perm (l : List ResultRow) : (sortRows l).Perm l := by
  unfold sortRows
  induction l with
  | nil => simp
  | cons x xs ih => exact ((insertRow_perm x _).trans (ih.cons x))

/-- Claim C1 as amended: the final query returns at most the result limit of
rows, ordered by model identifier ascending, with no two identical rows (the
DISTINCT is row-level); every returned row is the projection of a joined row
satisfying every active condition.  A model identifier can still repeat across
rows when the model joins to several distinct bps_name values. -/
theorem c1_query_result_shape (db : Database) (f : Filters) :
    (runQuery db f).length ≤ f.res_limit ∧
    List.Chain' rowLe (runQuery db f) ∧
    (runQuery db f).Nodup ∧
    ∀ r ∈ runQuery db f, ∃ j ∈ leftJoinRows db, project j = r ∧
      ∀ c ∈ buildConds f, evalCond db j c = true := by
  refine ⟨?_, ?_, ?_, ?_⟩
  · unfold runQuery
    exact List.length_take_le _ _
  · unfold runQuery
    exact (sortRows_chain _).take _
  · unfold runQuery
    exact ((sortRows_perm _).nodup_iff.mpr (List.nodup_dedup _)).sublist
      (List.take_sublist _ _)
  · intro r hr
    unfold runQuery at hr
    have hr1 := (List.take_sublist _ _).subset hr
    have hr2 := ((sortRows_perm _).mem_iff).mp hr1
    have hr3 := List.mem_dedup.mp hr2
    obtain ⟨j, hj, hpr⟩ := List.mem_map.mp hr3
    have hfil := List.mem_filter.mp hj
    refine ⟨j, hfil.1, hpr, ?_⟩
    intro c hc
    exact List.all_eq_true.mp hfil.2 c hc

/-- Witness for c1_query_result_shape on the fire-filter fixture, naming a
joined row behind the single returned result row. -/
theorem c1_query_result_shape_witness :
    (runQuery fireExDb fireExF).length ≤ fireExF.res_limit ∧
    ∃ j ∈ leftJoinRows fireExDb,
      project j = ⟨"BpS-A", Option.none, Option.none, Option.none, Option.none,
        Option.none, Option.none, Option.none, Option.none, Option.none,
        Option.none⟩ ∧
      ∀ c ∈ buildConds fireExF, evalCond fireExDb j c = true :=
  ⟨(c1_query_result_shape fireExDb fireExF).1,
   (c1_query_result_shape fireExDb fireExF).2.2.2
     ⟨"BpS-A", Option.none, Option.none, Option.none, Option.none, Option.none,
      Option.none, Option.none, Option.none, Option.none, Option.none⟩
     (by decide)⟩

/-- Claim C1, counterexample: a model joined to two reference-condition rows
with different names yields two result rows carrying the same model id, so a
model id can appear more than once in the capped, DISTINCT, ordered result. -/
theorem c1_duplicate_model_id_counterexample :
    (runQuery dupDb dupF).map (fun r => r.bps_model_id) = ["A", "A"] ∧
    1 < ((runQuery dupDb dupF).map (fun r => r.bps_model_id)).count "A" := by
  refine ⟨by decide, by decide⟩

end BPS
